import Mathlib

/-!
Verification of the person-finder aggregation engine.

Shallow embedding of the pure/coordination logic of
`finder/enhanced_person_finder.py`, `finder/comprehensive_person_finder.py`,
`finder/smart_instagram_finder.py` and `finder/dynamic_instagram_finder.py`.

Modelling conventions: Python `float` confidence/relevance values are
modelled as rationals (`ℚ`); Python `Dict[str, Any]` payloads that the
embedded code never inspects are modelled as association lists of strings;
`str.lower()` is modelled on ASCII (the only characters the cleaned token
sets can contain are ASCII anyway, because the code strips everything
outside `[a-zA-Z0-9\s]`).
-/

/-- The `PersonResult` dataclass of `finder/enhanced_person_finder.py`
(platform, name, username, url, bio, location, additional_info,
confidence, source). -/
structure PersonResult where
  platform : String
  name : String
  username : String
  url : String
  bio : String
  location : String
  additionalInfo : List (String × String) := []
  confidence : ℚ := 0
  source : String := ""
deriving DecidableEq, Repr

/-- The key computed inside `_deduplicate_results`:
`key = (result.platform, result.username)`. -/
def dedupKey (r : PersonResult) : String × String :=
  (r.platform, r.username)

/-- Loop body of `EnhancedPersonFinder._deduplicate_results` (lines 537-548):
iterate over `results`, keeping a `seen` set of keys; a record whose key is
not yet in `seen` is appended to the output and its key added to `seen`;
a record whose key was already seen is skipped. -/
def deduplicateResultsAux : List PersonResult → List (String × String) → List PersonResult
  | [], _ => []
  | r :: rest, seen =>
    if dedupKey r ∈ seen then
      deduplicateResultsAux rest seen
    else
      r :: deduplicateResultsAux rest (dedupKey r :: seen)

/-- `EnhancedPersonFinder._deduplicate_results`: starts with an empty
`seen` set. -/
def deduplicateResults (results : List PersonResult) : List PersonResult :=
  deduplicateResultsAux results []

/-- Specification-shaped restatement of first-per-key filtering: keep the
head, then recurse on the tail with every record sharing the head's key
removed.  Used to characterise `deduplicateResults`. -/
def keepFirstPerKey : List PersonResult → List PersonResult
  | [] => []
  | r :: rest =>
      r :: keepFirstPerKey (rest.filter (fun s => decide (dedupKey s ≠ dedupKey r)))
termination_by l => l.length
decreasing_by
simp only [List.length_cons]
exact Nat.lt_succ_of_le (List.length_filter_le _ _)

/-- Forget the `source` field (the provenance annotation) of a record. -/
def eraseProvenance (r : PersonResult) : PersonResult :=
  { r with source := "" }

/-- The `InstagramProfile` dataclass shared by
`finder/smart_instagram_finder.py` and `finder/dynamic_instagram_finder.py`.
The Python field `private` is a Lean keyword and is rendered `isPrivate`. -/
structure InstagramProfile where
  username : String
  fullName : String
  bio : String
  followers : Nat
  following : Nat
  posts : Nat
  verified : Bool
  isPrivate : Bool
  url : String
  profileImage : String
  searchMethod : String
  confidence : ℚ := 0
deriving DecidableEq, Repr

/-- Loop body of `_remove_duplicates` (smart/dynamic Instagram finders,
lines 413-423): a profile is kept only when `profile.username` is truthy
(non-empty) AND not already in `seen_usernames`. -/
def removeDuplicatesAux : List InstagramProfile → List String → List InstagramProfile
  | [], _ => []
  | p :: rest, seen =>
    if p.username ≠ "" ∧ p.username ∉ seen then
      p :: removeDuplicatesAux rest (p.username :: seen)
    else
      removeDuplicatesAux rest seen

/-- `_remove_duplicates` of the smart/dynamic Instagram finders. -/
def removeDuplicates (profiles : List InstagramProfile) : List InstagramProfile :=
  removeDuplicatesAux profiles []

/-- Python whitespace (the ASCII part of the `\s` class and of
`str.split()` with no separator). -/
def isPySpace (c : Char) : Bool :=
  c = ' ' || c = '\t' || c = '\n' || c = '\r' || c = (Char.ofNat 11) || c = (Char.ofNat 12)

/-- `str.lower()` (ASCII). -/
def pyLower (s : String) : String :=
  ⟨s.toList.map Char.toLower⟩

/-- `re.sub(r'[^a-zA-Z0-9\s]', '', s.lower())` from
`_calculate_name_similarity`: lowercase, then drop every character that is
not an ASCII letter, digit, or whitespace. -/
def cleanText (s : String) : String :=
  ⟨(pyLower s).toList.filter (fun c => c.isAlphanum || isPySpace c)⟩

/-- `str.split()` with no argument: split on runs of whitespace, dropping
empty pieces.  `acc` holds the (reversed) characters of the current word. -/
def pySplitAux : List Char → List Char → List String
  | [], acc => if acc = [] then [] else [⟨acc.reverse⟩]
  | c :: rest, acc =>
    if isPySpace c then
      if acc = [] then pySplitAux rest []
      else ⟨acc.reverse⟩ :: pySplitAux rest []
    else pySplitAux rest (c :: acc)

/-- Python `s.split()`. -/
def pySplit (s : String) : List String :=
  pySplitAux s.toList []

/-- The token set of a string: `set(s.split())`. -/
def tokenSet (s : String) : Finset String :=
  (pySplit s).toFinset

/-- Intersection-over-union of two finite token sets, 0 when either is
empty. -/
def jaccardFinset (a b : Finset String) : ℚ :=
  if a = ∅ ∨ b = ∅ then 0
  else ((a ∩ b).card : ℚ) / ((a ∪ b).card : ℚ)

/-- The scoring function as the specification words it: intersection-over-
union of the lowercase space-split token sets of the two strings, 0 when
either token set is empty. -/
def jaccardSpec (q n : String) : ℚ :=
  jaccardFinset (tokenSet (pyLower q)) (tokenSet (pyLower n))

/-- `ComprehensivePersonFinder._calculate_name_similarity` (lines 549-567):
guard on falsy (empty) strings, strip non-alphanumeric characters from the
lowercased strings, split into token sets, guard on empty token sets, then
`len(intersection) / len(union) if union else 0.0`. -/
def calculateNameSimilarity (query name : String) : ℚ :=
  if query = "" ∨ name = "" then 0
  else
    let queryWords := tokenSet (cleanText query)
    let nameWords := tokenSet (cleanText name)
    if queryWords = ∅ ∨ nameWords = ∅ then 0
    else if queryWords ∪ nameWords ≠ ∅ then
      ((queryWords ∩ nameWords).card : ℚ) / ((queryWords ∪ nameWords).card : ℚ)
    else 0

/-- `EnhancedPersonFinder._calculate_name_confidence` (lines 521-535):
identical to `_calculate_name_similarity` except that no character
cleaning is applied before splitting. -/
def calculateNameConfidence (searchName foundName : String) : ℚ :=
  if searchName = "" ∨ foundName = "" then 0
  else
    let searchWords := tokenSet (pyLower searchName)
    let foundWords := tokenSet (pyLower foundName)
    if searchWords = ∅ ∨ foundWords = ∅ then 0
    else if searchWords ∪ foundWords ≠ ∅ then
      ((searchWords ∩ foundWords).card : ℚ) / ((searchWords ∪ foundWords).card : ℚ)
    else 0

/-- Models Python `list(set(queries))` at the end of
`_build_search_queries`.  Within one interpreter process, iterating a `set`
built from a given insertion sequence is a pure, deterministic function of
that sequence; we model it as first-occurrence deduplication (the concrete
iteration order differs but is equally a function of the input). -/
def pySetList : List String → List String
  | [] => []
  | q :: rest => q :: (pySetList rest).filter (fun s => decide (s ≠ q))

/-- `name.replace(' ', '+')`: the pattern is a single character, so the
replacement is a character map. -/
def replaceSpacePlus (s : String) : String :=
  ⟨s.toList.map (fun c => if c = ' ' then '+' else c)⟩

/-- `ComprehensivePersonFinder._build_search_queries` (lines 172-215).
The `if location:` / `if additional_info:` tests are Python truthiness:
`None` and the empty string both skip the block. -/
def buildSearchQueries (name : String) (location : Option String)
    (additionalInfo : Option String) : List String :=
  let quoted := "\"" ++ name ++ "\""
  let basic := [quoted, name, replaceSpacePlus name]
  let locationPart :=
    match location with
    | none => []
    | some loc =>
      if loc = "" then []
      else [quoted ++ " " ++ loc, quoted ++ " \"" ++ loc ++ "\"", name ++ " " ++ loc]
  let professionalPart :=
    [quoted ++ " LinkedIn", quoted ++ " profile", quoted ++ " professional",
     quoted ++ " CEO OR director OR manager OR founder",
     quoted ++ " company OR organization OR business"]
  let socialPart :=
    [quoted ++ " Instagram", quoted ++ " Twitter", quoted ++ " Facebook",
     quoted ++ " social media"]
  let extraPart :=
    match additionalInfo with
    | none => []
    | some info =>
      if info = "" then []
      else [quoted ++ " \"" ++ info ++ "\"", name ++ " " ++ info]
  pySetList (basic ++ locationPart ++ professionalPart ++ socialPart ++ extraPart)

/-- The `PersonProfile` dataclass of `finder/comprehensive_person_finder.py`.
The wall-clock `last_updated` field is not modelled; `private` is a Lean
keyword and is rendered `isPrivate`. -/
structure PersonProfile where
  platform : String
  username : String
  fullName : String
  bio : String
  location : String
  followers : Nat
  following : Nat
  posts : Nat
  verified : Bool
  isPrivate : Bool
  url : String
  profileImage : String
  additionalInfo : List (String × String) := []
  confidence : ℚ := 0
deriving DecidableEq, Repr

/-- The `WebMention` dataclass of `finder/comprehensive_person_finder.py`. -/
structure WebMention where
  url : String
  title : String
  snippet : String
  source : String
  date : String
  relevanceScore : ℚ
  mentionType : String
deriving DecidableEq, Repr

/-- The `PersonData` dataclass of `finder/comprehensive_person_finder.py`
(the fields the embedded steps touch; dict/set fields are association and
plain lists). -/
structure PersonData where
  name : String
  profiles : List PersonProfile := []
  webMentions : List WebMention := []
  professionalInfo : List (String × String) := []
  skills : List String := []
  interests : List String := []
  locations : List String := []
  confidenceScore : ℚ := 0
deriving DecidableEq, Repr

/-- The kind tag paired with each future in `comprehensive_search`:
`('platform', p, future)`, `('web', ...)`, `('professional', ...)`,
`('news', ...)`. -/
inductive SearchKind
  | platform
  | web
  | professional
  | news
deriving DecidableEq, Repr

/-- What a future resolves to, by kind: platform searches yield profiles,
web/news searches yield mentions, the directory search yields a
professional-info dict. -/
inductive FutureValue
  | profiles (ps : List PersonProfile)
  | mentions (ms : List WebMention)
  | info (d : List (String × String))
deriving DecidableEq, Repr

/-- `dict.update`: keys of `upd` override those of `base`; modelled on
association lists (overridden entries dropped, updates appended). -/
def dictUpdate (base upd : List (String × String)) : List (String × String) :=
  base.filter (fun kv => decide (∀ kv2 ∈ upd, kv2.1 ≠ kv.1)) ++ upd

/-- One iteration of the fan-in loop of `comprehensive_search`
(lines 150-165): `future.result()` either resolves to a value, which is
folded into `person_data` according to the future's kind tag, or raises,
in which case the `except` branch logs the error and the loop moves on
with `person_data` unchanged.  A kind/value mismatch cannot arise in the
source; it leaves the state unchanged. -/
def applyFuture (pd : PersonData) : SearchKind × Except String FutureValue → PersonData
  | (_, Except.error _) => pd
  | (SearchKind.platform, Except.ok (FutureValue.profiles ps)) =>
      { pd with profiles := pd.profiles ++ ps }
  | (SearchKind.web, Except.ok (FutureValue.mentions ms)) =>
      { pd with webMentions := pd.webMentions ++ ms }
  | (SearchKind.news, Except.ok (FutureValue.mentions ms)) =>
      { pd with webMentions := pd.webMentions ++ ms }
  | (SearchKind.professional, Except.ok (FutureValue.info d)) =>
      { pd with professionalInfo := dictUpdate pd.professionalInfo d }
  | (_, Except.ok _) => pd

/-- The whole fan-in loop: fold `applyFuture` over the dispatched futures
in completion-handling order. -/
def collectResults (pd : PersonData) (futures : List (SearchKind × Except String FutureValue)) :
    PersonData :=
  futures.foldl applyFuture pd

/-- The `PersonData` value `comprehensive_search` starts from:
`PersonData(name=name)`, every other field at its dataclass default
(in particular `confidence_score = 0.0`). -/
def initialPersonData (name : String) : PersonData :=
  { name := name }

/-- The confidence-score step of `_analyze_and_correlate_data`
(lines 625-628): `confidence_score` is assigned the average of the profile
confidences only when `person_data.profiles` is non-empty; otherwise the
field keeps its previous value (the dataclass default 0.0 on the
`comprehensive_search` path). -/
def analyzeConfidenceScore (pd : PersonData) : ℚ :=
  if pd.profiles ≠ [] then
    (pd.profiles.map PersonProfile.confidence).sum / (pd.profiles.length : ℚ)
  else
    pd.confidenceScore

/-- Concrete record: the spec's "Jordan Lee" example, strong hit
(confidence 0.8). -/
def recJordanA : PersonResult :=
  { platform := "instagram", name := "Jordan Lee", username := "jordanlee",
    url := "https://instagram.com/jordanlee", bio := "", location := "",
    confidence := 4/5, source := "google" }

/-- Concrete record: the spec's "Jordan Lee" example, weak duplicate hit
(confidence 0.5) of the same identity key. -/
def recJordanB : PersonResult :=
  { platform := "instagram", name := "Jordan Lee", username := "jordanlee",
    url := "https://instagram.com/jordanlee", bio := "", location := "",
    confidence := 1/2, source := "bing" }

/-- Concrete record with an empty username (unresolved stable key). -/
def recNoKeyA : PersonResult :=
  { platform := "instagram", name := "Alice Example", username := "",
    url := "https://instagram.com/p/alice", bio := "", location := "",
    confidence := 3/5, source := "google" }

/-- A second concrete record with an empty username on the same platform. -/
def recNoKeyB : PersonResult :=
  { platform := "instagram", name := "Bob Example", username := "",
    url := "https://instagram.com/p/bob", bio := "", location := "",
    confidence := 2/5, source := "bing" }

/-- Concrete Instagram profile with an empty (unresolved) username. -/
def igProfileNoKey : InstagramProfile :=
  { username := "", fullName := "Alice Example", bio := "", followers := 10,
    following := 2, posts := 1, verified := false, isPrivate := false,
    url := "", profileImage := "", searchMethod := "google_search",
    confidence := 1/2 }

/-- Concrete profile found on Instagram, confidence 0.5. -/
def profileIG : PersonProfile :=
  { platform := "instagram", username := "jordanlee", fullName := "Jordan Lee",
    bio := "chef", location := "Austin", followers := 100, following := 50,
    posts := 10, verified := false, isPrivate := false,
    url := "https://instagram.com/jordanlee", profileImage := "",
    confidence := 1/2 }

/-- Concrete profile found on LinkedIn, confidence 1. -/
def profileLI : PersonProfile :=
  { platform := "linkedin", username := "jordan-lee", fullName := "Jordan Lee",
    bio := "chef at example", location := "Austin", followers := 200,
    following := 80, posts := 5, verified := true, isPrivate := false,
    url := "https://linkedin.com/in/jordan-lee", profileImage := "",
    confidence := 1 }

/-- Concrete aggregation state holding the two profiles above. -/
def pdTwoProfiles : PersonData :=
  { name := "Jordan Lee", profiles := [profileIG, profileLI] }

theorem deduplicateResultsAux_sublist (l : List PersonResult) (seen : List (String × String)) :
    (deduplicateResultsAux l seen).Sublist l := by
  induction l generalizing seen with
  | nil => simp [deduplicateResultsAux]
  | cons r rest ih =>
    simp only [deduplicateResultsAux]
    split
    · exact (ih seen).cons r
    · exact (ih _).cons₂ r

theorem mem_map_key_deduplicateResultsAux (l : List PersonResult)
    (seen : List (String × String)) (k : String × String) :
    k ∈ (deduplicateResultsAux l seen).map dedupKey ↔
      k ∈ l.map dedupKey ∧ k ∉ seen := by
  induction l generalizing seen with
  | nil => simp [deduplicateResultsAux]
  | cons r rest ih =>
    simp only [deduplicateResultsAux]
    split
    · rename_i h
      rw [ih]
      simp only [List.map_cons, List.mem_cons]
      by_cases hk : k = dedupKey r
      · subst hk
        simp [h]
      · simp [hk]
    · rename_i h
      simp only [List.map_cons, List.mem_cons, ih, List.mem_cons]
      by_cases hk : k = dedupKey r
      · subst hk
        simp [h]
      · simp [hk]

theorem nodup_map_key_deduplicateResultsAux (l : List PersonResult)
    (seen : List (String × String)) :
    ((deduplicateResultsAux l seen).map dedupKey).Nodup := by
  induction l generalizing seen with
  | nil => simp [deduplicateResultsAux]
  | cons r rest ih =>
    simp only [deduplicateResultsAux]
    split
    · exact ih seen
    · simp only [List.map_cons, List.nodup_cons]
      refine ⟨?_, ih _⟩
      rw [mem_map_key_deduplicateResultsAux]
      rintro ⟨-, h2⟩
      exact h2 (List.mem_cons_self _ _)

theorem deduplicateResultsAux_eq_keepFirst (l : List PersonResult)
    (seen : List (String × String)) :
    deduplicateResultsAux l seen =
      keepFirstPerKey (l.filter (fun r => decide (dedupKey r ∉ seen))) := by
  induction l generalizing seen with
  | nil => simp [deduplicateResultsAux, keepFirstPerKey]
  | cons r rest ih =>
    simp only [deduplicateResultsAux, List.filter_cons]
    by_cases h : dedupKey r ∈ seen
    · rw [if_pos h, if_neg (by simp [h] : ¬ decide (dedupKey r ∉ seen) = true)]
      exact ih seen
    · rw [if_neg h, if_pos (by simp [h] : decide (dedupKey r ∉ seen) = true)]
      simp only [keepFirstPerKey]
      rw [ih (dedupKey r :: seen), List.filter_filter]
      congr 1
      congr 1
      apply List.filter_congr
      intro s _
      by_cases h1 : dedupKey s = dedupKey r <;> by_cases h2 : dedupKey s ∈ seen <;>
        simp [h1, h2, List.mem_cons]

/-- Shared helper: a pair of records with the same key deduplicates to the
first record alone. -/
theorem dedup_pair_eq_key (r₁ r₂ : PersonResult) (h : dedupKey r₁ = dedupKey r₂) :
    deduplicateResults [r₁, r₂] = [r₁] := by
  simp [deduplicateResults, deduplicateResultsAux, h]

theorem jaccardFinset_nonneg (a b : Finset String) : 0 ≤ jaccardFinset a b := by
  unfold jaccardFinset
  split
  · exact le_refl 0
  · positivity

theorem jaccardFinset_le_one (a b : Finset String) : jaccardFinset a b ≤ 1 := by
  unfold jaccardFinset
  split
  · exact zero_le_one
  · rename_i h
    push_neg at h
    have ha : a.Nonempty := Finset.nonempty_iff_ne_empty.mpr h.1
    have hu : 0 < (a ∪ b).card :=
      Finset.card_pos.mpr (ha.mono Finset.subset_union_left)
    rw [div_le_one (by exact_mod_cast hu)]
    exact_mod_cast Finset.card_le_card Finset.inter_subset_union

theorem calculateNameSimilarity_eq_jaccard (q n : String) :
    calculateNameSimilarity q n =
      jaccardFinset (tokenSet (cleanText q)) (tokenSet (cleanText n)) := by
  rcases eq_or_ne q "" with rfl | hq
  · have he : tokenSet (cleanText "") = ∅ := by decide
    simp [calculateNameSimilarity, jaccardFinset, he]
  rcases eq_or_ne n "" with rfl | hn
  · have he : tokenSet (cleanText "") = ∅ := by decide
    simp [calculateNameSimilarity, jaccardFinset, he]
  rw [calculateNameSimilarity, if_neg (by simp [hq, hn])]
  by_cases hset : tokenSet (cleanText q) = ∅ ∨ tokenSet (cleanText n) = ∅
  · simp only [jaccardFinset, if_pos hset]
  · have hu : tokenSet (cleanText q) ∪ tokenSet (cleanText n) ≠ ∅ := by
      intro hcon
      rw [Finset.union_eq_empty] at hcon
      tauto
    simp only [jaccardFinset, if_neg hset]
    exact if_pos hu

theorem calculateNameConfidence_eq_jaccardSpec (q n : String) :
    calculateNameConfidence q n = jaccardSpec q n := by
  rcases eq_or_ne q "" with rfl | hq
  · have he : tokenSet (pyLower "") = ∅ := by decide
    simp [calculateNameConfidence, jaccardSpec, jaccardFinset, he]
  rcases eq_or_ne n "" with rfl | hn
  · have he : tokenSet (pyLower "") = ∅ := by decide
    simp [calculateNameConfidence, jaccardSpec, jaccardFinset, he]
  rw [calculateNameConfidence, if_neg (by simp [hq, hn])]
  by_cases hset : tokenSet (pyLower q) = ∅ ∨ tokenSet (pyLower n) = ∅
  · simp only [jaccardSpec, jaccardFinset, if_pos hset]
  · have hu : tokenSet (pyLower q) ∪ tokenSet (pyLower n) ≠ ∅ := by
      intro hcon
      rw [Finset.union_eq_empty] at hcon
      tauto
    simp only [jaccardSpec, jaccardFinset, if_neg hset]
    exact if_pos hu

theorem applyFuture_error (pd : PersonData) (k : SearchKind) (e : String) :
    applyFuture pd (k, Except.error e) = pd := by
  cases k <;> rfl

theorem applyFuture_profiles_mono (pd : PersonData)
    (f : SearchKind × Except String FutureValue) (p : PersonProfile)
    (hp : p ∈ pd.profiles) : p ∈ (applyFuture pd f).profiles := by
  obtain ⟨k, v⟩ := f
  cases v with
  | error e => rw [applyFuture_error]; exact hp
  | ok val =>
    cases k <;> cases val <;>
      simp only [applyFuture, List.mem_append] <;> tauto

theorem collectResults_profiles_mono (pd : PersonData)
    (futures : List (SearchKind × Except String FutureValue)) (p : PersonProfile)
    (hp : p ∈ pd.profiles) : p ∈ (collectResults pd futures).profiles := by
  induction futures generalizing pd with
  | nil => exact hp
  | cons f rest ih =>
    rw [collectResults, List.foldl_cons]
    exact ih _ (applyFuture_profiles_mono pd f p hp)

theorem collectResults_all_error (pd : PersonData)
    (futures : List (SearchKind × Except String FutureValue))
    (h : ∀ f ∈ futures, ∃ e, f.2 = Except.error e) :
    collectResults pd futures = pd := by
  induction futures generalizing pd with
  | nil => rfl
  | cons f rest ih =>
    obtain ⟨e, he⟩ := h f (List.mem_cons_self _ _)
    rw [collectResults, List.foldl_cons]
    have hstep : applyFuture pd f = pd := by
      obtain ⟨k, v⟩ := f
      simp only at he
      subst he
      exact applyFuture_error pd k e
    rw [hstep]
    exact ih pd (fun g hg => h g (List.mem_cons_of_mem _ hg))

theorem mem_removeDuplicatesAux_username_ne (l : List InstagramProfile)
    (seen : List String) (p : InstagramProfile)
    (hp : p ∈ removeDuplicatesAux l seen) : p.username ≠ "" := by
  induction l generalizing seen with
  | nil => simp [removeDuplicatesAux] at hp
  | cons q rest ih =>
    simp only [removeDuplicatesAux] at hp
    split at hp
    · rename_i hq
      rcases List.mem_cons.mp hp with rfl | hp2
      · exact hq.1
      · exact ih _ hp2
    · exact ih _ hp

/-- C1 counterexample: two records with the same `(platform, username)` key
(the spec's Jordan Lee example, weak hit arriving first) collapse to the
first record alone, whose confidence is NOT the maximum of the inputs'
confidences — `_deduplicate_results` discards the later duplicate instead
of merging maxima. -/
theorem dedup_no_max_merge_cex :
    dedupKey recJordanA = dedupKey recJordanB ∧
    deduplicateResults [recJordanB, recJordanA] = [recJordanB] ∧
    recJordanB.confidence ≠ max recJordanA.confidence recJordanB.confidence := by
  refine ⟨rfl, dedup_pair_eq_key _ _ rfl, ?_⟩
  simp [recJordanA, recJordanB, max_def]
  norm_num

/-- C1 (amended): two candidate records with an equal `(platform, username)`
key deduplicate into exactly one profile — the first-arriving record, kept
with all of its fields unchanged; the later record's numeric fields and
confidence are discarded, not maxed. -/
theorem dedup_equal_key_first_wins (r₁ r₂ : PersonResult)
    (h : dedupKey r₁ = dedupKey r₂) :
    deduplicateResults [r₁, r₂] = [r₁] :=
  dedup_pair_eq_key r₁ r₂ h

/-- Witness for `dedup_equal_key_first_wins` at the Jordan Lee records. -/
theorem dedup_equal_key_first_wins_witness :
    deduplicateResults [recJordanB, recJordanA] = [recJordanB] :=
  dedup_equal_key_first_wins recJordanB recJordanA rfl

/-- C2 counterexample: permuting the arrival order of the same two records
with an equal key changes the surviving profile (different confidence),
even after erasing the provenance (`source`) annotation — deduplication is
not order-independent. -/
theorem dedup_order_dependent_cex :
    ([recJordanA, recJordanB].Perm [recJordanB, recJordanA]) ∧
    ¬ ((deduplicateResults [recJordanA, recJordanB]).map eraseProvenance).Perm
        ((deduplicateResults [recJordanB, recJordanA]).map eraseProvenance) := by
  constructor
  · exact List.Perm.swap recJordanB recJordanA []
  · have h1 : deduplicateResults [recJordanA, recJordanB] = [recJordanA] :=
      dedup_pair_eq_key _ _ rfl
    have h2 : deduplicateResults [recJordanB, recJordanA] = [recJordanB] :=
      dedup_pair_eq_key _ _ rfl
    rw [h1, h2]
    simp only [List.map_cons, List.map_nil]
    intro hperm
    rw [List.perm_singleton, List.cons.injEq] at hperm
    have hc := congrArg PersonResult.confidence hperm.1
    norm_num [eraseProvenance, recJordanA, recJordanB] at hc

/-- C2 (amended): permuting the arrival order preserves the SET of identity
keys of the deduplicated output (the surviving field values, however,
depend on order, as the counterexample shows). -/
theorem dedup_key_set_order_independent (l l' : List PersonResult)
    (h : l.Perm l') :
    ((deduplicateResults l).map dedupKey).Perm
      ((deduplicateResults l').map dedupKey) := by
  unfold deduplicateResults
  rw [List.perm_ext_iff_of_nodup (nodup_map_key_deduplicateResultsAux l [])
      (nodup_map_key_deduplicateResultsAux l' [])]
  intro k
  rw [mem_map_key_deduplicateResultsAux, mem_map_key_deduplicateResultsAux]
  simp only [List.not_mem_nil, not_false_eq_true, and_true]
  exact (h.map dedupKey).mem_iff

/-- Witness for `dedup_key_set_order_independent` at the Jordan Lee
records. -/
theorem dedup_key_set_order_independent_witness :
    ((deduplicateResults [recJordanA, recJordanB]).map dedupKey).Perm
      ((deduplicateResults [recJordanB, recJordanA]).map dedupKey) :=
  dedup_key_set_order_independent _ _ (List.Perm.swap recJordanB recJordanA [])

/-- C3: `_build_search_queries` is a pure function of its arguments — two
calls with identical name, location and additional-info inputs return an
identical list of query strings in identical order. -/
theorem buildSearchQueries_deterministic (n₁ n₂ : String)
    (l₁ l₂ a₁ a₂ : Option String) (hn : n₁ = n₂) (hl : l₁ = l₂) (ha : a₁ = a₂) :
    buildSearchQueries n₁ l₁ a₁ = buildSearchQueries n₂ l₂ a₂ := by
  rw [hn, hl, ha]

/-- Witness for `buildSearchQueries_deterministic` at concrete inputs. -/
theorem buildSearchQueries_deterministic_witness :
    buildSearchQueries "Jordan Lee" (some "Austin") (some "chef") =
      buildSearchQueries "Jordan Lee" (some "Austin") (some "chef") :=
  buildSearchQueries_deterministic "Jordan Lee" "Jordan Lee"
    (some "Austin") (some "Austin") (some "chef") (some "chef") rfl rfl rfl

/-- C4 counterexample: a record with an empty username does NOT become its
own singleton profile.  In `enhanced_person_finder` two empty-username
records on the same platform share the key `(platform, "")`, so the second
is dropped; in the smart/dynamic Instagram finders an empty-username
profile is removed from the output entirely. -/
theorem empty_key_not_singleton_cex :
    deduplicateResults [recNoKeyA, recNoKeyB] = [recNoKeyA] ∧
    recNoKeyB ∉ deduplicateResults [recNoKeyA, recNoKeyB] ∧
    removeDuplicates [igProfileNoKey] = [] := by
  have h1 : deduplicateResults [recNoKeyA, recNoKeyB] = [recNoKeyA] :=
    dedup_pair_eq_key _ _ rfl
  refine ⟨h1, ?_, ?_⟩
  · rw [h1]
    intro hmem
    have hn := congrArg PersonResult.name (List.mem_singleton.mp hmem)
    simp [recNoKeyA, recNoKeyB] at hn
  · simp [removeDuplicates, removeDuplicatesAux, igProfileNoKey]

/-- C4 (amended): in `enhanced_person_finder` an empty username is an
ordinary key value — two empty-username records on the same platform
deduplicate to the first alone; in the smart/dynamic Instagram finders no
empty-username profile ever appears in the deduplicated output. -/
theorem empty_key_dedup_policy :
    (∀ r₁ r₂ : PersonResult, r₁.platform = r₂.platform → r₁.username = "" →
      r₂.username = "" → deduplicateResults [r₁, r₂] = [r₁]) ∧
    (∀ (l : List InstagramProfile) (p : InstagramProfile),
      p ∈ removeDuplicates l → p.username ≠ "") := by
  constructor
  · intro r₁ r₂ hp h1 h2
    exact dedup_pair_eq_key r₁ r₂ (by rw [dedupKey, dedupKey, hp, h1, h2])
  · intro l p hp
    exact mem_removeDuplicatesAux_username_ne l [] p hp

/-- Witness for `empty_key_dedup_policy` at concrete records. -/
theorem empty_key_dedup_policy_witness :
    deduplicateResults [recNoKeyA, recNoKeyB] = [recNoKeyA] ∧
    (igProfileNoKey ∈ removeDuplicates [igProfileNoKey] →
      igProfileNoKey.username ≠ "") :=
  ⟨empty_key_dedup_policy.1 recNoKeyA recNoKeyB rfl rfl rfl,
   fun hmem => empty_key_dedup_policy.2 [igProfileNoKey] igProfileNoKey hmem⟩

/-- C5: the overall confidence score is the arithmetic mean of the profile
confidences; with an empty profile list (the starting state, or every
dispatched search failing) it is 0.0, with no error raised — the
computation is total. -/
theorem overall_confidence_mean :
    (∀ pd : PersonData, pd.profiles ≠ [] →
      analyzeConfidenceScore pd =
        (pd.profiles.map PersonProfile.confidence).sum / (pd.profiles.length : ℚ)) ∧
    (∀ name : String, analyzeConfidenceScore (initialPersonData name) = 0) ∧
    (∀ (name : String) (futures : List (SearchKind × Except String FutureValue)),
      (∀ f ∈ futures, ∃ e, f.2 = Except.error e) →
      (collectResults (initialPersonData name) futures).profiles = [] ∧
      analyzeConfidenceScore (collectResults (initialPersonData name) futures) = 0) := by
  refine ⟨?_, ?_, ?_⟩
  · intro pd h
    rw [analyzeConfidenceScore, if_pos h]
  · intro name
    simp [analyzeConfidenceScore, initialPersonData]
  · intro name futures h
    rw [collectResults_all_error _ _ h]
    exact ⟨rfl, by simp [analyzeConfidenceScore, initialPersonData]⟩

/-- Witness for `overall_confidence_mean`: two profiles with confidences
1/2 and 1 average to 3/4, and a single failing future leaves the profile
list empty. -/
theorem overall_confidence_mean_witness :
    analyzeConfidenceScore pdTwoProfiles = 3/4 ∧
    (collectResults (initialPersonData "Jordan Lee")
      [(SearchKind.platform, Except.error "instagram blocked")]).profiles = [] := by
  constructor
  · rw [overall_confidence_mean.1 pdTwoProfiles (by simp [pdTwoProfiles])]
    norm_num [pdTwoProfiles, profileIG, profileLI]
  · exact (overall_confidence_mean.2.2 "Jordan Lee"
      [(SearchKind.platform, Except.error "instagram blocked")]
      (by
        intro f hf
        rcases List.mem_singleton.mp hf with rfl
        exact ⟨"instagram blocked", rfl⟩)).1

/-- C6 counterexample: `_calculate_name_similarity` strips punctuation
before tokenizing, so on `("a.b", "ab")` it returns 1, while the Jaccard
similarity of the raw lowercase space-split token sets (the claim's stated
value) is 0. -/
theorem name_similarity_not_plain_jaccard_cex :
    calculateNameSimilarity "a.b" "ab" = 1 ∧ jaccardSpec "a.b" "ab" = 0 ∧
    calculateNameSimilarity "a.b" "ab" ≠ jaccardSpec "a.b" "ab" := by
  have h1 : calculateNameSimilarity "a.b" "ab" = 1 := by
    rw [calculateNameSimilarity_eq_jaccard]
    have e1 : tokenSet (cleanText "a.b") = {"ab"} := by decide
    have e2 : tokenSet (cleanText "ab") = {"ab"} := by decide
    rw [e1, e2, jaccardFinset, if_neg (by simp)]
    simp
  have h2 : jaccardSpec "a.b" "ab" = 0 := by
    have e1 : tokenSet (pyLower "a.b") = {"a.b"} := by decide
    have e2 : tokenSet (pyLower "ab") = {"ab"} := by decide
    have hi : ({"a.b"} : Finset String) ∩ {"ab"} = ∅ := by decide
    rw [jaccardSpec, e1, e2, jaccardFinset, if_neg (by simp), hi]
    simp
  exact ⟨h1, h2, by rw [h1, h2]; norm_num⟩

/-- C6 (amended): `_calculate_name_confidence` (enhanced finder) computes
exactly the Jaccard similarity of the lowercase whitespace-split token
sets; `_calculate_name_similarity` (comprehensive finder) computes the
Jaccard similarity of the token sets AFTER removing every character that
is not an ASCII letter, digit or whitespace; both return 0 when either
token set is empty, and both results lie in [0, 1]. -/
theorem name_similarity_characterization :
    (∀ q n : String, calculateNameConfidence q n = jaccardSpec q n) ∧
    (∀ q n : String, calculateNameSimilarity q n =
      jaccardFinset (tokenSet (cleanText q)) (tokenSet (cleanText n))) ∧
    (∀ q n : String,
      tokenSet (cleanText q) = ∅ ∨ tokenSet (cleanText n) = ∅ →
      calculateNameSimilarity q n = 0) ∧
    (∀ q n : String,
      0 ≤ calculateNameSimilarity q n ∧ calculateNameSimilarity q n ≤ 1) ∧
    (∀ q n : String,
      0 ≤ calculateNameConfidence q n ∧ calculateNameConfidence q n ≤ 1) := by
  refine ⟨calculateNameConfidence_eq_jaccardSpec,
    calculateNameSimilarity_eq_jaccard, ?_, ?_, ?_⟩
  · intro q n h
    rw [calculateNameSimilarity_eq_jaccard, jaccardFinset, if_pos h]
  · intro q n
    rw [calculateNameSimilarity_eq_jaccard]
    exact ⟨jaccardFinset_nonneg _ _, jaccardFinset_le_one _ _⟩
  · intro q n
    rw [calculateNameConfidence_eq_jaccardSpec, jaccardSpec]
    exact ⟨jaccardFinset_nonneg _ _, jaccardFinset_le_one _ _⟩

/-- Witness for `name_similarity_characterization`: a punctuation-only
query has an empty cleaned token set, so its similarity is 0. -/
theorem name_similarity_characterization_witness :
    calculateNameSimilarity "!!!" "ab" = 0 :=
  name_similarity_characterization.2.2.1 "!!!" "ab" (Or.inl (by decide))

/-- C7: an error raised by one dispatched search is caught at the fan-in
boundary of `comprehensive_search` (the per-future `except` branch), so
the fold over futures is total and every profile from any successfully
returned platform search still appears in the final state, whatever other
futures error. -/
theorem collector_failure_isolated (pd : PersonData)
    (futures : List (SearchKind × Except String FutureValue))
    (ps : List PersonProfile)
    (hmem : (SearchKind.platform, Except.ok (FutureValue.profiles ps)) ∈ futures)
    (p : PersonProfile) (hp : p ∈ ps) :
    p ∈ (collectResults pd futures).profiles := by
  induction futures generalizing pd with
  | nil => simp at hmem
  | cons f rest ih =>
    rw [collectResults, List.foldl_cons]
    rcases List.mem_cons.mp hmem with rfl | h2
    · exact collectResults_profiles_mono _ rest p
        (by simp only [applyFuture, List.mem_append]; exact Or.inr hp)
    · exact ih _ h2

/-- Witness for `collector_failure_isolated`: one succeeding platform
future next to one failing future; the succeeding future's profile is in
the result. -/
theorem collector_failure_isolated_witness :
    profileIG ∈ (collectResults (initialPersonData "Jordan Lee")
      [(SearchKind.platform, Except.ok (FutureValue.profiles [profileIG])),
       (SearchKind.platform, Except.error "linkedin blocked")]).profiles :=
  collector_failure_isolated _ _ [profileIG]
    (List.mem_cons_self _ _) profileIG (List.mem_singleton.mpr rfl)

/-- C8 counterexample: the empty name is not special-cased by
`_build_search_queries` — its output is non-empty. -/
theorem empty_name_queries_nonempty_cex :
    buildSearchQueries "" none none ≠ [] := by decide

/-- C8 (amended): generation never raises; for the empty name (and no
location/context) it returns the 11 template queries built around the
empty string rather than an empty sequence. -/
theorem empty_name_queries_count :
    (buildSearchQueries "" none none).length = 11 := by decide

/-- C10: `_deduplicate_results` returns exactly the subsequence of the
first record encountered for each `(platform, username)` key, each kept
with all of its fields unchanged (it equals the keep-first-per-key
function, and its output is a sublist of its input). -/
theorem dedup_is_first_per_key_subsequence (l : List PersonResult) :
    deduplicateResults l = keepFirstPerKey l ∧
    (deduplicateResults l).Sublist l := by
  constructor
  · rw [deduplicateResults, deduplicateResultsAux_eq_keepFirst]
    congr 1
    apply List.filter_eq_self.mpr
    intro r _
    simp
  · exact deduplicateResultsAux_sublist l []
